import Mathlib

/-!
Verification of the AI-Drift-Monitor core against its specification.

The development shallowly embeds the relevant JavaScript/TypeScript source:

* `services/api/src/utils/metrics.ts`: `calculateCosineSimilarity` and
  `calculateKLDivergence`, embedded over `ℝ` with `Except` for thrown errors.
* the worker (`runDriftCheck`, `checkModel`, `createAlert`, `waitForServices`,
  `main`): the per-model effects (HTTP call to the python service plus
  database writes) are abstracted as an outcome oracle, and the control
  flow (`for` loop, `try`/`catch`, retry loop) is embedded exactly.
* the read API (`GET /drift/latest`): embedded as a function of the row list
  the SQL query returns (newest first).
-/

namespace DriftMonitor

/-- Error taxonomy of the metric functions.  The source throws plain
`Error` objects; the spec names the mismatched-length failure
`DimensionMismatch` and the zero-sum failure `EmptyDistribution`. -/
inductive MetricError where
  | dimensionMismatch
  | emptyDistribution
deriving DecidableEq, Repr

noncomputable section
open Classical

/-- The epsilon floor of `calculateKLDivergence` (`1e-10` in the source). -/
def epsilon : ℝ := 1 / 10 ^ 10

/-- The accumulated `dotProduct` of the loop in `calculateCosineSimilarity`:
`dotProduct += vectorA[i] * vectorB[i]`. -/
def dotProduct : List ℝ → List ℝ → ℝ
  | a :: as, b :: bs => a * b + dotProduct as bs
  | _, _ => 0

/-- The accumulated squared magnitude of the loop in
`calculateCosineSimilarity`: `magnitudeA += vectorA[i] * vectorA[i]`. -/
def sumSq : List ℝ → ℝ
  | [] => 0
  | a :: as => a * a + sumSq as

/-- Embedding of `calculateCosineSimilarity` from
`services/api/src/utils/metrics.ts`: throws on mismatched lengths, returns
`0` when either magnitude is zero, otherwise the normalized dot product. -/
def calculateCosineSimilarity (vectorA vectorB : List ℝ) :
    Except MetricError ℝ :=
  if vectorA.length ≠ vectorB.length then
    Except.error MetricError.dimensionMismatch
  else if Real.sqrt (sumSq vectorA) = 0 ∨ Real.sqrt (sumSq vectorB) = 0 then
    Except.ok 0
  else
    Except.ok (dotProduct vectorA vectorB /
      (Real.sqrt (sumSq vectorA) * Real.sqrt (sumSq vectorB)))

/-- The accumulation loop of `calculateKLDivergence` over the already
normalized lists: terms with `normalizedP[i] ≤ epsilon` are skipped, and the
denominator is floored at `epsilon` (`Math.max(normalizedQ[i], epsilon)`). -/
def klSum : List ℝ → List ℝ → ℝ
  | p :: ps, q :: qs =>
      (if p > epsilon then p * Real.log (p / max q epsilon) else 0) + klSum ps qs
  | _, _ => 0

/-- Embedding of `calculateKLDivergence` from
`services/api/src/utils/metrics.ts`: throws on mismatched lengths, throws
when either input sums to zero, otherwise normalizes both inputs by their
sums and accumulates the truncated divergence. -/
def calculateKLDivergence (p q : List ℝ) : Except MetricError ℝ :=
  if p.length ≠ q.length then
    Except.error MetricError.dimensionMismatch
  else if p.sum = 0 ∨ q.sum = 0 then
    Except.error MetricError.emptyDistribution
  else
    Except.ok (klSum (p.map fun v => v / p.sum) (q.map fun v => v / q.sum))

end

/-- C5: mismatched-length inputs make both metric functions fail with
`DimensionMismatch` before any computation; no numeric result is produced. -/
theorem metrics_dimension_mismatch (p q : List ℝ) (h : p.length ≠ q.length) :
    calculateCosineSimilarity p q = Except.error MetricError.dimensionMismatch ∧
    calculateKLDivergence p q = Except.error MetricError.dimensionMismatch := by
  constructor
  · unfold calculateCosineSimilarity
    rw [if_pos h]
  · unfold calculateKLDivergence
    rw [if_pos h]

/-- Witness for C5 at the concrete input `p = [1]`, `q = [1, 2]`. -/
theorem metrics_dimension_mismatch_witness :
    ([(1 : ℝ)].length ≠ [(1 : ℝ), 2].length) ∧
    (calculateCosineSimilarity [(1 : ℝ)] [1, 2] =
      Except.error MetricError.dimensionMismatch ∧
     calculateKLDivergence [(1 : ℝ)] [1, 2] =
      Except.error MetricError.dimensionMismatch) :=
  ⟨by simp, metrics_dimension_mismatch [(1 : ℝ)] [1, 2] (by simp)⟩

/-- C9: on two empty vectors the length check passes, both magnitudes are
zero, and `calculateCosineSimilarity` returns `0` instead of failing. -/
theorem cosine_empty_vectors :
    calculateCosineSimilarity ([] : List ℝ) ([] : List ℝ) = Except.ok 0 := by
  unfold calculateCosineSimilarity
  simp [sumSq]

lemma sumSq_nonneg (v : List ℝ) : 0 ≤ sumSq v := by
  induction v with
  | nil => simp [sumSq]
  | cons a as ih => simpa [sumSq] using add_nonneg (mul_self_nonneg a) ih

lemma dotProduct_comm (a b : List ℝ) : dotProduct a b = dotProduct b a := by
  induction a generalizing b with
  | nil => cases b <;> simp [dotProduct]
  | cons x xs ih =>
    cases b with
    | nil => simp [dotProduct]
    | cons y ys => simp [dotProduct, ih, mul_comm]

/-- Cauchy–Schwarz for the accumulated list dot product.  No length
hypothesis is needed: `dotProduct` stops at the shorter list while `sumSq`
only gains non-negative terms. -/
lemma dotProduct_sq_le (a b : List ℝ) :
    dotProduct a b ^ 2 ≤ sumSq a * sumSq b := by
  induction a generalizing b with
  | nil =>
    simp [dotProduct, sumSq]
  | cons x xs ih =>
    cases b with
    | nil =>
      simp [dotProduct, sumSq]
    | cons y ys =>
      have hA := sumSq_nonneg xs
      have hB := sumSq_nonneg ys
      have hd := ih ys
      simp only [dotProduct, sumSq]
      rcases eq_or_lt_of_le hB with hB0 | hBpos
      · have hd0 : dotProduct xs ys ^ 2 ≤ 0 := by nlinarith
        have hdz : dotProduct xs ys = 0 :=
          (pow_eq_zero_iff two_ne_zero).mp (le_antisymm hd0 (sq_nonneg _))
        rw [hdz, ← hB0]
        nlinarith [mul_nonneg hA (mul_self_nonneg y)]
      · nlinarith [sq_nonneg (x * sumSq ys - y * dotProduct xs ys),
          mul_nonneg (add_nonneg (sq_nonneg y) hB) (sub_nonneg.mpr hd), hBpos]

lemma dotProduct_nonneg (a b : List ℝ)
    (ha : ∀ x ∈ a, 0 ≤ x) (hb : ∀ x ∈ b, 0 ≤ x) : 0 ≤ dotProduct a b := by
  induction a generalizing b with
  | nil => cases b <;> simp [dotProduct]
  | cons x xs ih =>
    cases b with
    | nil => simp [dotProduct]
    | cons y ys =>
      have hx : 0 ≤ x := ha x (by simp)
      have hy : 0 ≤ y := hb y (by simp)
      have hxs : ∀ z ∈ xs, 0 ≤ z := fun z hz => ha z (by simp [hz])
      have hys : ∀ z ∈ ys, 0 ≤ z := fun z hz => hb z (by simp [hz])
      simpa [dotProduct] using add_nonneg (mul_nonneg hx hy) (ih ys hxs hys)

lemma calculateCosineSimilarity_comm (a b : List ℝ) :
    calculateCosineSimilarity a b = calculateCosineSimilarity b a := by
  unfold calculateCosineSimilarity
  by_cases h : a.length = b.length
  · rw [if_neg (show ¬a.length ≠ b.length from by simp [h]),
      if_neg (show ¬b.length ≠ a.length from by simp [h])]
    by_cases hz : Real.sqrt (sumSq a) = 0 ∨ Real.sqrt (sumSq b) = 0
    · rw [if_pos hz, if_pos (Or.symm hz)]
    · rw [if_neg hz,
        if_neg (show ¬(Real.sqrt (sumSq b) = 0 ∨ Real.sqrt (sumSq a) = 0) from
          fun hc => hz (Or.symm hc)),
        dotProduct_comm, mul_comm]
  · rw [if_pos h, if_pos (Ne.symm h)]

/-- C4: for equal-length non-zero vectors, cosine similarity is symmetric,
its value lies in `[-1, 1]`, and for non-negative inputs in `[0, 1]`. -/
theorem cosine_symmetric_and_bounded (a b : List ℝ) (hlen : a.length = b.length)
    (ha : sumSq a ≠ 0) (hb : sumSq b ≠ 0) :
    calculateCosineSimilarity a b = calculateCosineSimilarity b a ∧
    ∃ r : ℝ, calculateCosineSimilarity a b = Except.ok r ∧
      -1 ≤ r ∧ r ≤ 1 ∧ ((∀ x ∈ a, 0 ≤ x) → (∀ x ∈ b, 0 ≤ x) → 0 ≤ r) := by
  refine ⟨calculateCosineSimilarity_comm a b, ?_⟩
  have hA : 0 < sumSq a := (sumSq_nonneg a).lt_of_ne (Ne.symm ha)
  have hB : 0 < sumSq b := (sumSq_nonneg b).lt_of_ne (Ne.symm hb)
  have hsA : 0 < Real.sqrt (sumSq a) := Real.sqrt_pos.mpr hA
  have hsB : 0 < Real.sqrt (sumSq b) := Real.sqrt_pos.mpr hB
  have hden : 0 < Real.sqrt (sumSq a) * Real.sqrt (sumSq b) := mul_pos hsA hsB
  refine ⟨dotProduct a b / (Real.sqrt (sumSq a) * Real.sqrt (sumSq b)), ?_, ?_⟩
  · unfold calculateCosineSimilarity
    rw [if_neg (by simp [hlen]),
      if_neg (not_or.mpr ⟨ne_of_gt hsA, ne_of_gt hsB⟩)]
  · have habs : |dotProduct a b| ≤ Real.sqrt (sumSq a) * Real.sqrt (sumSq b) := by
      have h1 : |dotProduct a b| = Real.sqrt (dotProduct a b ^ 2) :=
        (Real.sqrt_sq_eq_abs _).symm
      rw [h1, ← Real.sqrt_mul (le_of_lt hA)]
      exact Real.sqrt_le_sqrt (dotProduct_sq_le a b)
    have hr : |dotProduct a b / (Real.sqrt (sumSq a) * Real.sqrt (sumSq b))| ≤ 1 := by
      rw [abs_div, abs_of_pos hden]
      exact (div_le_one hden).mpr habs
    rcases abs_le.mp hr with ⟨hl, hu⟩
    exact ⟨hl, hu, fun hpa hpb =>
      div_nonneg (dotProduct_nonneg a b hpa hpb) (le_of_lt hden)⟩

/-- Witness for C4 at `a = [3, 4]`, `b = [4, 3]`. -/
theorem cosine_symmetric_and_bounded_witness :
    calculateCosineSimilarity [(3 : ℝ), 4] [4, 3] =
      calculateCosineSimilarity [(4 : ℝ), 3] [3, 4] ∧
    ∃ r : ℝ, calculateCosineSimilarity [(3 : ℝ), 4] [4, 3] = Except.ok r ∧
      -1 ≤ r ∧ r ≤ 1 ∧
      ((∀ x ∈ [(3 : ℝ), 4], 0 ≤ x) → (∀ x ∈ [(4 : ℝ), 3], 0 ≤ x) → 0 ≤ r) :=
  cosine_symmetric_and_bounded [(3 : ℝ), 4] [4, 3] (by simp)
    (by norm_num [sumSq]) (by norm_num [sumSq])

lemma epsilon_pos : 0 < epsilon := by norm_num [epsilon]

lemma klSum_self (P : List ℝ) : klSum P P = 0 := by
  induction P with
  | nil => simp [klSum]
  | cons a as ih =>
    simp only [klSum, ih, add_zero]
    by_cases h : a > epsilon
    · rw [if_pos h, max_eq_left (le_of_lt h),
        div_self (ne_of_gt (lt_trans epsilon_pos h)), Real.log_one, mul_zero]
    · rw [if_neg h]

/-- C7: the divergence of a distribution against itself is exactly `0`:
after normalization both lists coincide, every kept term has ratio `1`. -/
theorem kl_self_eq_zero (p : List ℝ) (hlen : 0 < p.length) (hs : p.sum ≠ 0) :
    calculateKLDivergence p p = Except.ok 0 := by
  unfold calculateKLDivergence
  rw [if_neg (by simp), if_neg (by simp [hs]), klSum_self]

/-- Witness for C7 at `p = [1, 1]`. -/
theorem kl_self_eq_zero_witness :
    calculateKLDivergence [(1 : ℝ), 1] [(1 : ℝ), 1] = Except.ok 0 :=
  kl_self_eq_zero [(1 : ℝ), 1] (by simp) (by norm_num)

lemma sum_map_div (p : List ℝ) (s : ℝ) :
    (p.map fun v => v / s).sum = p.sum / s := by
  induction p with
  | nil => simp
  | cons a as ih => simp [ih, add_div]

lemma sum_map_mul_left (p : List ℝ) (c : ℝ) :
    (p.map fun v => c * v).sum = c * p.sum := by
  induction p with
  | nil => simp
  | cons a as ih => simp [ih, mul_add]

lemma map_div_scale (c : ℝ) (hc : c ≠ 0) (p : List ℝ) :
    (p.map fun v => c * v).map (fun v => v / (p.map fun v => c * v).sum) =
      p.map fun v => v / p.sum := by
  rw [sum_map_mul_left, List.map_map]
  have h : ((fun v => v / (c * p.sum)) ∘ fun v => c * v) =
      fun v => v / p.sum := by
    funext v
    simp only [Function.comp]
    rw [mul_div_mul_left v p.sum hc]
  rw [h]

/-- C10: normalization makes `calculateKLDivergence` invariant under a
positive rescaling of either argument. -/
theorem kl_scale_invariance (c : ℝ) (hc : 0 < c) (p q : List ℝ)
    (hlen : p.length = q.length) (hps : p.sum ≠ 0) (hqs : q.sum ≠ 0) :
    calculateKLDivergence (p.map fun v => c * v) q = calculateKLDivergence p q ∧
    calculateKLDivergence p (q.map fun v => c * v) = calculateKLDivergence p q := by
  have hc0 : c ≠ 0 := ne_of_gt hc
  constructor
  · unfold calculateKLDivergence
    rw [if_neg (show ¬(p.map fun v => c * v).length ≠ q.length from by
        simp [hlen]),
      if_neg (show ¬p.length ≠ q.length from by simp [hlen]),
      if_neg (show ¬((p.map fun v => c * v).sum = 0 ∨ q.sum = 0) from
        not_or.mpr ⟨by rw [sum_map_mul_left]; exact mul_ne_zero hc0 hps, hqs⟩),
      if_neg (not_or.mpr ⟨hps, hqs⟩), map_div_scale c hc0 p]
  · unfold calculateKLDivergence
    rw [if_neg (show ¬p.length ≠ (q.map fun v => c * v).length from by
        simp [hlen]),
      if_neg (show ¬p.length ≠ q.length from by simp [hlen]),
      if_neg (show ¬(p.sum = 0 ∨ (q.map fun v => c * v).sum = 0) from
        not_or.mpr ⟨hps, by rw [sum_map_mul_left]; exact mul_ne_zero hc0 hqs⟩),
      if_neg (not_or.mpr ⟨hps, hqs⟩), map_div_scale c hc0 q]

/-- Witness for C10 at `c = 2`, `p = [1, 1]`, `q = [1, 3]`. -/
theorem kl_scale_invariance_witness :
    calculateKLDivergence ([(1 : ℝ), 1].map fun v => 2 * v) [1, 3] =
      calculateKLDivergence [(1 : ℝ), 1] [1, 3] ∧
    calculateKLDivergence [(1 : ℝ), 1] ([(1 : ℝ), 3].map fun v => 2 * v) =
      calculateKLDivergence [(1 : ℝ), 1] [1, 3] :=
  kl_scale_invariance 2 (by norm_num) [(1 : ℝ), 1] [1, 3] (by simp)
    (by norm_num) (by norm_num)

/-- Counterexample to C3: `p = [2, -1]` and `q = [3, -2]` both sum to `1`
(nonzero), yet `calculateKLDivergence` returns `2 * log (2/3) < 0`: the
claim's hypotheses do not force non-negative entries, and even for
non-negative entries the skipped sub-epsilon mass can leave a slightly
negative total. -/
theorem kl_negative_counterexample :
    ∃ r : ℝ, calculateKLDivergence [2, -1] [3, -2] = Except.ok r ∧ r < 0 := by
  refine ⟨2 * Real.log (2 / 3), ?_, ?_⟩
  · unfold calculateKLDivergence
    rw [if_neg (by simp), if_neg (by norm_num)]
    have hmax : max (3 : ℝ) epsilon = 3 := max_eq_left (by norm_num [epsilon])
    have h2 : (2 : ℝ) > epsilon := by norm_num [epsilon]
    have h1 : ¬((-1 : ℝ) > epsilon) := by norm_num [epsilon]
    norm_num [klSum, hmax, if_pos h2, if_neg h1]
  · have hlog : Real.log (2 / 3) < 0 := Real.log_neg (by norm_num) (by norm_num)
    linarith

lemma list_sum_nonneg (l : List ℝ) (h : ∀ x ∈ l, 0 ≤ x) : 0 ≤ l.sum := by
  induction l with
  | nil => simp
  | cons a as ih =>
    have ha : 0 ≤ a := h a (by simp)
    have has : ∀ x ∈ as, 0 ≤ x := fun x hx => h x (by simp [hx])
    simpa using add_nonneg ha (ih has)

/-- Each kept term of `klSum` is at least `a - (b + epsilon)` via the
inequality `log t ≤ t - 1`, and each skipped term contributes `0`, which is
also at least `a - (b + epsilon)` when `a ≤ epsilon` and `0 ≤ b`. -/
lemma klSum_term_ge (a b : ℝ) (hb : 0 ≤ b) :
    a - b - epsilon ≤
      (if a > epsilon then a * Real.log (a / max b epsilon) else 0) := by
  have hmax : max b epsilon ≤ b + epsilon :=
    max_le (le_add_of_nonneg_right (le_of_lt epsilon_pos))
      (le_add_of_nonneg_left hb)
  by_cases h : a > epsilon
  · rw [if_pos h]
    have ha : 0 < a := lt_trans epsilon_pos h
    have hm : 0 < max b epsilon := lt_of_lt_of_le epsilon_pos (le_max_right b _)
    have hlog : Real.log (max b epsilon / a) ≤ max b epsilon / a - 1 :=
      Real.log_le_sub_one_of_pos (div_pos hm ha)
    have hneg : Real.log (a / max b epsilon) = -Real.log (max b epsilon / a) := by
      rw [← Real.log_inv, inv_div]
    have hmul : a * Real.log (max b epsilon / a) ≤ max b epsilon - a := by
      have h1 := mul_le_mul_of_nonneg_left hlog (le_of_lt ha)
      have h2 : a * (max b epsilon / a - 1) = max b epsilon - a := by
        field_simp
      linarith
    rw [hneg]
    linarith
  · rw [if_neg h]
    push_neg at h
    linarith

/-- Summed lower bound for `klSum` over equal-length lists whose second
component has non-negative entries. -/
lemma klSum_ge (P : List ℝ) : ∀ Q : List ℝ, P.length = Q.length →
    (∀ x ∈ Q, 0 ≤ x) →
    P.sum - Q.sum - P.length * epsilon ≤ klSum P Q := by
  induction P with
  | nil =>
    intro Q hlen _
    cases Q with
    | nil => simp [klSum]
    | cons y ys => simp at hlen
  | cons a as ih =>
    intro Q hlen hQ
    cases Q with
    | nil => simp at hlen
    | cons b bs =>
      have hb : 0 ≤ b := hQ b (by simp)
      have hbs : ∀ x ∈ bs, 0 ≤ x := fun x hx => hQ x (by simp [hx])
      have hlen2 : as.length = bs.length := by simpa using hlen
      have hstep := klSum_term_ge a b hb
      have hrec := ih bs hlen2 hbs
      simp only [klSum, List.sum_cons, List.length_cons]
      push_cast
      linarith

/-- C3 as amended: for equal-length inputs with non-negative entries and
nonzero sums, the truncated divergence is bounded below by
`-(length p) * epsilon`; strict non-negativity fails in general (see the
counterexample). -/
theorem kl_lower_bound (p q : List ℝ) (hlen : p.length = q.length)
    (hp : ∀ x ∈ p, 0 ≤ x) (hq : ∀ x ∈ q, 0 ≤ x)
    (hps : p.sum ≠ 0) (hqs : q.sum ≠ 0) :
    ∃ r : ℝ, calculateKLDivergence p q = Except.ok r ∧
      -((p.length : ℝ) * epsilon) ≤ r := by
  refine ⟨klSum (p.map fun v => v / p.sum) (q.map fun v => v / q.sum), ?_, ?_⟩
  · unfold calculateKLDivergence
    rw [if_neg (by simp [hlen]), if_neg (not_or.mpr ⟨hps, hqs⟩)]
  · have hq0 : 0 < q.sum := (list_sum_nonneg q hq).lt_of_ne (Ne.symm hqs)
    have hQnn : ∀ x ∈ q.map fun v => v / q.sum, 0 ≤ x := by
      intro x hx
      obtain ⟨v, hv, rfl⟩ := List.mem_map.mp hx
      exact div_nonneg (hq v hv) (le_of_lt hq0)
    have hbound := klSum_ge (p.map fun v => v / p.sum)
      (q.map fun v => v / q.sum) (by simp [hlen]) hQnn
    rw [sum_map_div, sum_map_div, div_self hps, div_self hqs,
      List.length_map] at hbound
    linarith

/-- Witness for the amended C3 at `p = [1, 2]`, `q = [2, 1]`. -/
theorem kl_lower_bound_witness :
    ∃ r : ℝ, calculateKLDivergence [(1 : ℝ), 2] [2, 1] = Except.ok r ∧
      -((([(1 : ℝ), 2] : List ℝ).length : ℝ) * epsilon) ≤ r :=
  kl_lower_bound [(1 : ℝ), 2] [2, 1] (by simp)
    (by norm_num) (by norm_num) (by norm_num) (by norm_num)

/-! ## Worker embedding

The worker fetches the model registry, then runs
`for (const model of models) { await checkModel(model); }` inside a single
`try`/`catch`.  Per-model effects (the `POST /compute_drift` call and the
database writes of `checkModel`) are abstracted as an outcome oracle; the
control flow of `runDriftCheck` is embedded exactly. -/

/-- A row of the `models` registry (`SELECT id, name FROM models`). -/
structure Model where
  id : Nat
  name : String
deriving DecidableEq, Repr

/-- The `for` loop of `runDriftCheck` with its surrounding `try`/`catch`:
`outcome m` is the result of `await checkModel(m)`.  Returns the list of
models for which `checkModel` was invoked, paired with whether the `catch`
branch logged an error.  An `Except.error` from `checkModel` aborts the
loop and lands in the cycle-level `catch`; the remaining models are not
visited. -/
def checkLoop (outcome : Model → Except String Unit) :
    List Model → List Model × Bool
  | [] => ([], false)
  | m :: rest =>
    match outcome m with
    | Except.ok _ =>
      let r := checkLoop outcome rest
      (m :: r.1, r.2)
    | Except.error _ => ([m], true)

/-- Embedding of `runDriftCheck`: the function always returns normally (the
`catch` swallows any error, so the cron schedule is never disturbed), and
reports which models were actually checked this cycle. -/
def runDriftCheck (outcome : Model → Except String Unit)
    (models : List Model) : List Model × Bool :=
  checkLoop outcome models

/-- Counterexample to C1: with two registered models, a failing
`checkModel` on the first one means the second is never invoked in that
cycle, contrary to the claimed per-model isolation. -/
theorem run_drift_check_counterexample :
    runDriftCheck
        (fun m => if m.id = 1 then Except.error "boom" else Except.ok ())
        [⟨1, "a"⟩, ⟨2, "b"⟩] = ([⟨1, "a"⟩], true) ∧
      (⟨2, "b"⟩ : Model) ∉
        (runDriftCheck
          (fun m => if m.id = 1 then Except.error "boom" else Except.ok ())
          [⟨1, "a"⟩, ⟨2, "b"⟩]).1 := by
  constructor
  · rfl
  · intro hmem
    simp [runDriftCheck, checkLoop] at hmem

/-- C1 as amended: a `checkModel` failure is caught and logged at cycle
granularity, `runDriftCheck` itself returns normally (so the schedule and
later cycles survive), the models before the failing one were evaluated,
but the models after it are skipped for that cycle. -/
theorem run_drift_check_cycle_abort (outcome : Model → Except String Unit)
    (pre post : List Model) (m : Model)
    (hpre : ∀ m2 ∈ pre, ∃ u, outcome m2 = Except.ok u)
    (hm : ∃ e, outcome m = Except.error e) :
    runDriftCheck outcome (pre ++ m :: post) = (pre ++ [m], true) := by
  induction pre with
  | nil =>
    obtain ⟨e, he⟩ := hm
    simp [runDriftCheck, checkLoop, he]
  | cons x xs ih =>
    obtain ⟨u, hu⟩ := hpre x (by simp)
    have hxs : ∀ m2 ∈ xs, ∃ u, outcome m2 = Except.ok u :=
      fun m2 hm2 => hpre m2 (by simp [hm2])
    have := ih hxs
    simp only [runDriftCheck, checkLoop, List.cons_append, hu] at this ⊢
    simp [this]

/-- Witness for the amended C1: one healthy model, then a failing one, then
one more that is skipped. -/
theorem run_drift_check_cycle_abort_witness :
    runDriftCheck
        (fun m => if m.id = 2 then Except.error "down" else Except.ok ())
        ([⟨1, "a"⟩] ++ (⟨2, "b"⟩ : Model) :: [⟨3, "c"⟩]) =
      ([⟨1, "a"⟩] ++ [⟨2, "b"⟩], true) :=
  run_drift_check_cycle_abort
    (fun m => if m.id = 2 then Except.error "down" else Except.ok ())
    [⟨1, "a"⟩] [⟨3, "c"⟩] ⟨2, "b"⟩
    (by intro m2 hm2; simp at hm2; subst hm2; exact ⟨(), rfl⟩)
    ⟨"down", rfl⟩

/-- The drift payload returned by the python service, as consumed by
`checkModel`/`createAlert` (metric fields embedded over `ℚ`, since the
severity decision is a plain comparison). -/
structure DriftPayload where
  kl_divergence : ℚ
  cosine_similarity : ℚ
  drift_detected : Bool
deriving DecidableEq, Repr

/-- `DRIFT_CONFIG.criticalThreshold` from the worker (`0.5`). -/
def criticalThreshold : ℚ := 1 / 2

/-- The severity computation of `createAlert`:
`drift.kl_divergence > DRIFT_CONFIG.criticalThreshold ? "critical" : "warning"`. -/
def alertSeverity (drift : DriftPayload) : String :=
  if drift.kl_divergence > criticalThreshold then "critical" else "warning"

/-- C2: for any drift result with `drift_detected = true`, the alert is
`critical` exactly when `kl_divergence > 0.5`, and `warning` otherwise; in
particular `0.6` maps to `critical` and `0.3` to `warning`. -/
theorem alert_severity_spec :
    (∀ d : DriftPayload, d.drift_detected = true →
      (alertSeverity d = "critical" ↔ criticalThreshold < d.kl_divergence) ∧
      (¬criticalThreshold < d.kl_divergence → alertSeverity d = "warning")) ∧
    alertSeverity ⟨6 / 10, 9 / 10, true⟩ = "critical" ∧
    alertSeverity ⟨3 / 10, 9 / 10, true⟩ = "warning" := by
  refine ⟨fun d _ => ⟨?_, fun h => ?_⟩,
    by norm_num [alertSeverity, criticalThreshold],
    by norm_num [alertSeverity, criticalThreshold]⟩
  · unfold alertSeverity
    by_cases h : criticalThreshold < d.kl_divergence
    · simp [h]
    · simp [h]
  · unfold alertSeverity
    simp [h]

/-- Witness for C2 at a concrete detected drift with `kl_divergence = 0.6`. -/
theorem alert_severity_spec_witness :
    (alertSeverity ⟨6 / 10, 9 / 10, true⟩ = "critical" ↔
      criticalThreshold < (6 : ℚ) / 10) ∧
    (¬criticalThreshold < (6 : ℚ) / 10 →
      alertSeverity ⟨6 / 10, 9 / 10, true⟩ = "warning") :=
  alert_severity_spec.1 ⟨6 / 10, 9 / 10, true⟩ rfl

/-! ## Startup gating

`waitForServices` counts `i` from `maxRetries` down to `1`; each iteration
probes the python service and the database, returns on success, and
otherwise sleeps `delayMs` before the next try; exhaustion throws
`"Services unavailable"`, which `main().catch` turns into a fatal
`process.exit(1)`.  The probe pair is abstracted as `health : Nat → Bool`
indexed by the zero-based attempt number; the loop result carries the
successful attempt index and the total milliseconds slept before it. -/

def waitLoop (health : Nat → Bool) (delayMs : Nat) :
    Nat → Nat → Except String (Nat × Nat)
  | _, 0 => Except.error "Services unavailable"
  | attempt, i + 1 =>
    if health attempt then Except.ok (attempt, attempt * delayMs)
    else waitLoop health delayMs (attempt + 1) i

/-- Embedding of `waitForServices(maxRetries, delayMs)`. -/
def waitForServices (health : Nat → Bool) (maxRetries delayMs : Nat) :
    Except String (Nat × Nat) :=
  waitLoop health delayMs 0 maxRetries

/-- Default `maxRetries = 30` of `waitForServices`. -/
def defaultMaxRetries : Nat := 30

/-- Default `delayMs = 2000` of `waitForServices`. -/
def defaultDelayMs : Nat := 2000

/-- `main` awaits `waitForServices()` with the defaults; a thrown error
reaches `main().catch`, which exits the process fatally. -/
def mainFatalExit (health : Nat → Bool) : Bool :=
  match waitForServices health defaultMaxRetries defaultDelayMs with
  | Except.error _ => true
  | Except.ok _ => false

lemma waitLoop_first_success (health : Nat → Bool) (delayMs : Nat) :
    ∀ n a k, k < n → health (a + k) = true →
      (∀ j, j < k → health (a + j) = false) →
      waitLoop health delayMs a n = Except.ok (a + k, (a + k) * delayMs) := by
  intro n
  induction n with
  | zero => intro a k hk; omega
  | succ n ih =>
    intro a k hk hsucc hbefore
    by_cases h0 : health a = true
    · have hk0 : k = 0 := by
        by_contra hne
        have := hbefore 0 (Nat.pos_of_ne_zero hne)
        simp only [Nat.add_zero] at this
        rw [this] at h0
        exact Bool.noConfusion h0
      subst hk0
      simp [waitLoop, h0]
    · have hfalse : health a = false := Bool.eq_false_iff.mpr h0
      have hkpos : 0 < k := by
        rcases Nat.eq_zero_or_pos k with h | h
        · subst h; simp only [Nat.add_zero] at hsucc; rw [hsucc] at hfalse
          exact absurd hfalse (by simp)
        · exact h
      have hrec := ih (a + 1) (k - 1) (by omega)
        (by rw [show a + 1 + (k - 1) = a + k by omega]; exact hsucc)
        (fun j hj => by
          rw [show a + 1 + j = a + (j + 1) by omega]
          exact hbefore (j + 1) (by omega))
      rw [show a + 1 + (k - 1) = a + k by omega] at hrec
      simp [waitLoop, hfalse, hrec]

lemma waitLoop_all_fail (health : Nat → Bool) (delayMs : Nat) :
    ∀ n a, (∀ j, j < n → health (a + j) = false) →
      waitLoop health delayMs a n = Except.error "Services unavailable" := by
  intro n
  induction n with
  | zero => intro a _; rfl
  | succ n ih =>
    intro a hfail
    have h0 : health a = false := by simpa using hfail 0 (by omega)
    have hrec := ih (a + 1) (fun j hj => by
      rw [show a + 1 + j = a + (j + 1) by omega]
      exact hfail (j + 1) (by omega))
    simp [waitLoop, h0, hrec]

/-- C6: with the default 30 attempts and the fixed 2000 ms pause,
`waitForServices` succeeds at the first attempt on which both probes are
healthy (having slept `2000` ms per prior failed attempt), and when all 30
attempts fail it throws `"Services unavailable"`, which `main` escalates
to a fatal process exit. -/
theorem wait_for_services_spec (health : Nat → Bool) :
    (∀ k, k < defaultMaxRetries → health k = true →
      (∀ j, j < k → health j = false) →
      waitForServices health defaultMaxRetries defaultDelayMs =
        Except.ok (k, k * defaultDelayMs) ∧ mainFatalExit health = false) ∧
    ((∀ j, j < defaultMaxRetries → health j = false) →
      waitForServices health defaultMaxRetries defaultDelayMs =
        Except.error "Services unavailable" ∧ mainFatalExit health = true) := by
  constructor
  · intro k hk hsucc hbefore
    have h := waitLoop_first_success health defaultDelayMs defaultMaxRetries 0 k
      hk (by simpa using hsucc) (fun j hj => by simpa using hbefore j hj)
    simp only [Nat.zero_add] at h
    refine ⟨h, ?_⟩
    unfold mainFatalExit
    rw [show waitForServices health defaultMaxRetries defaultDelayMs =
      Except.ok (k, k * defaultDelayMs) from h]
  · intro hfail
    have h := waitLoop_all_fail health defaultDelayMs defaultMaxRetries 0
      (fun j hj => by simpa using hfail j hj)
    refine ⟨h, ?_⟩
    unfold mainFatalExit
    rw [show waitForServices health defaultMaxRetries defaultDelayMs =
      Except.error "Services unavailable" from h]

/-- Witness for C6: services come up on the third attempt (index 2), after
two 2000 ms pauses; and a never-healthy probe ends in a fatal exit. -/
theorem wait_for_services_spec_witness :
    (waitForServices (fun k => decide (k = 2)) defaultMaxRetries
        defaultDelayMs = Except.ok (2, 2 * defaultDelayMs) ∧
      mainFatalExit (fun k => decide (k = 2)) = false) ∧
    (waitForServices (fun _ => false) defaultMaxRetries defaultDelayMs =
        Except.error "Services unavailable" ∧
      mainFatalExit (fun _ => false) = true) :=
  ⟨(wait_for_services_spec (fun k => decide (k = 2))).1 2 (by decide)
      (by decide) (by decide),
    (wait_for_services_spec (fun _ => false)).2 (fun j _ => rfl)⟩

/-! ## Read API embedding

`GET /drift/latest` selects the model's `drift_runs` ordered newest first
with `LIMIT 1`; the handler is embedded as a function of the returned row
list (newest first). -/

/-- A `drift_runs` row as read by the API (fields used by the handler). -/
structure DriftRunRow where
  model_id : Nat
  kl_divergence : ℚ
  cosine_similarity : ℚ
  drift_detected : Bool
deriving DecidableEq, Repr

/-- Embedding of the `GET /drift/latest` handler: destructures the first
row (`const [drift] = rows`); no row yields `"no_data"`, otherwise the
status is `"drift_detected"` or `"stable"` according to the stored
`drift_detected` flag. -/
def getDriftLatestStatus (rows : List DriftRunRow) : String :=
  match rows with
  | [] => "no_data"
  | drift :: _ => if drift.drift_detected then "drift_detected" else "stable"

/-- C8: the latest-drift endpoint distinguishes exactly the three states:
no stored run yields `"no_data"`, a latest run without drift yields
`"stable"`, and a latest run with drift yields `"drift_detected"`. -/
theorem drift_latest_three_states (rows : List DriftRunRow) :
    (rows = [] → getDriftLatestStatus rows = "no_data") ∧
    (∀ d rest, rows = d :: rest → d.drift_detected = false →
      getDriftLatestStatus rows = "stable") ∧
    (∀ d rest, rows = d :: rest → d.drift_detected = true →
      getDriftLatestStatus rows = "drift_detected") := by
  refine ⟨fun h => ?_, fun d rest h hd => ?_, fun d rest h hd => ?_⟩
  · rw [h]
    rfl
  · rw [h]
    simp [getDriftLatestStatus, hd]
  · rw [h]
    simp [getDriftLatestStatus, hd]

/-- Witness for C8 on a one-row history with `drift_detected = true`
(together with the empty and stable cases at other concrete rows). -/
theorem drift_latest_three_states_witness :
    getDriftLatestStatus [⟨1, 6 / 10, 9 / 10, true⟩] = "drift_detected" :=
  (drift_latest_three_states [⟨1, 6 / 10, 9 / 10, true⟩]).2.2
    ⟨1, 6 / 10, 9 / 10, true⟩ [] rfl rfl

end DriftMonitor
